import Mathlib

/-!
Shallow embedding of `src/modelplane/gfx/trackball.py` (virtual trackball for
3D scene viewing) and verification of its specification.

Modelling conventions:
* Python floats are modelled as real numbers (`ℝ`); the positional arguments
  and the mutable object state become explicit state passing on a `Trackball`
  structure.
* The source literals `0.70710678118654752440` and `1.41421356237309504880`
  are the 21-significant-digit decimal expansions of `1/√2` and `√2` (they
  denote exactly those constants at the source's double precision); the
  embedding uses `(Real.sqrt 2)⁻¹` and `Real.sqrt 2` for them.
* Python raises `ZeroDivisionError` on float division by zero.  Where the
  source catches it (`_v_normalize`, `_q_normalize`) the embedding tests the
  divisor for zero and returns the input unchanged, exactly as the handler
  does.  Where the source does not catch it (`Trackball._get_orientation`)
  the embedding returns an `Option`, `none` standing for the escaping
  exception.  A real-zero divisor corresponds to a raising program run only
  when the double evaluation of the divisor is also exactly `0.0`;
  conclusions about raising are therefore drawn only at inputs whose whole
  trace is exact in IEEE double arithmetic (dyadic rationals with exact
  products and sums), where the two semantics coincide.
* Exact-real trigonometry yields exact zeros (e.g. `cos(π/2) = 0`) where
  IEEE doubles yield tiny nonzero values (`cos` of the double nearest `π/2`
  is `6.123e-17`); conclusions drawn from trig-built states are limited to
  quantities on which both semantics agree exactly.
* `gl.glGetIntegerv(gl.GL_VIEWPORT)` is an external input: the viewport
  width/height become explicit parameters of `drag_to` / `zoom_to`.
-/

namespace ModelPlane

/-- A 3-vector, the source's 3-element list `[x, y, z]`. -/
structure V3 where
  x : ℝ
  y : ℝ
  z : ℝ

/-- A quaternion, the source's 4-element list `[x, y, z, w]`
(vector part first, scalar part last). -/
structure Quat where
  x : ℝ
  y : ℝ
  z : ℝ
  w : ℝ

@[ext] theorem V3.ext_three_fields : ∀ {a b : V3}, a.x = b.x → a.y = b.y → a.z = b.z → a = b
  | ⟨_, _, _⟩, ⟨_, _, _⟩, rfl, rfl, rfl => rfl

@[ext] theorem Quat.ext_four_fields :
    ∀ {a b : Quat}, a.x = b.x → a.y = b.y → a.z = b.z → a.w = b.w → a = b
  | ⟨_, _, _, _⟩, ⟨_, _, _, _⟩, rfl, rfl, rfl, rfl => rfl

/-- Source `_v_add`. -/
noncomputable def _v_add (v1 v2 : V3) : V3 :=
  ⟨v1.x + v2.x, v1.y + v2.y, v1.z + v2.z⟩

/-- Source `_v_sub`. -/
noncomputable def _v_sub (v1 v2 : V3) : V3 :=
  ⟨v1.x - v2.x, v1.y - v2.y, v1.z - v2.z⟩

/-- Source `_v_mul` (scale a vector by a scalar). -/
noncomputable def _v_mul (v : V3) (s : ℝ) : V3 :=
  ⟨v.x * s, v.y * s, v.z * s⟩

/-- Source `_v_dot`. -/
noncomputable def _v_dot (v1 v2 : V3) : ℝ :=
  v1.x * v2.x + v1.y * v2.y + v1.z * v2.z

/-- Source `_v_cross`. -/
noncomputable def _v_cross (v1 v2 : V3) : V3 :=
  ⟨v1.y * v2.z - v1.z * v2.y,
   v1.z * v2.x - v1.x * v2.z,
   v1.x * v2.y - v1.y * v2.x⟩

/-- Source `_v_length`. -/
noncomputable def _v_length (v : V3) : ℝ :=
  Real.sqrt (_v_dot v v)

/-- Source `_v_normalize`: returns `v` scaled by `1/length`, and `v`
unchanged when the length is zero (the `ZeroDivisionError` handler). -/
noncomputable def _v_normalize (v : V3) : V3 :=
  if _v_length v = 0 then v else _v_mul v (1 / _v_length v)

/-- Vector part of a quaternion: the source treats `q1`, `q2` as 3-element
vectors when it passes them to `_v_mul` / `_v_cross` / `_v_dot` in `_q_add`. -/
noncomputable def _q_vec (q : Quat) : V3 := ⟨q.x, q.y, q.z⟩

/-- Source `_q_add`: quaternion composition
(`v1*w2 + v2*w1 + cross(v2,v1)`, scalar `w1*w2 - dot(v1,v2)`). -/
noncomputable def _q_add (q1 q2 : Quat) : Quat :=
  let t1 := _v_mul (_q_vec q1) q2.w
  let t2 := _v_mul (_q_vec q2) q1.w
  let t3 := _v_cross (_q_vec q2) (_q_vec q1)
  let tf := _v_add t3 (_v_add t1 t2)
  ⟨tf.x, tf.y, tf.z, q1.w * q2.w - _v_dot (_q_vec q1) (_q_vec q2)⟩

/-- Source `_q_mul` (scale a quaternion by a scalar). -/
noncomputable def _q_mul (q : Quat) (s : ℝ) : Quat :=
  ⟨q.x * s, q.y * s, q.z * s, q.w * s⟩

/-- Source `_q_dot`. -/
noncomputable def _q_dot (q1 q2 : Quat) : ℝ :=
  q1.x * q2.x + q1.y * q2.y + q1.z * q2.z + q1.w * q2.w

/-- Source `_q_length`. -/
noncomputable def _q_length (q : Quat) : ℝ :=
  Real.sqrt (_q_dot q q)

/-- Source `_q_normalize`: returns `q` scaled by `1/length`, and `q`
unchanged when the length is zero (the `ZeroDivisionError` handler). -/
noncomputable def _q_normalize (q : Quat) : Quat :=
  if _q_length q = 0 then q else _q_mul q (1 / _q_length q)

/-- Source `_q_from_axis_angle`: vector part `normalize(v)*sin(phi/2)`,
scalar part `cos(phi/2)`. -/
noncomputable def _q_from_axis_angle (v : V3) (phi : ℝ) : Quat :=
  let u := _v_mul (_v_normalize v) (Real.sin (phi / 2))
  ⟨u.x, u.y, u.z, Real.cos (phi / 2)⟩

/-- Source `_q_rotmatrix`: the 16-element row-major matrix list.  Entries the
source never assigns keep the `0.0` they are initialised with. -/
noncomputable def _q_rotmatrix (q : Quat) : List ℝ :=
  [1 - 2 * (q.y * q.y + q.z * q.z), 2 * (q.x * q.y - q.z * q.w),
     2 * (q.z * q.x + q.y * q.w), 0,
   2 * (q.x * q.y + q.z * q.w), 1 - 2 * (q.z * q.z + q.x * q.x),
     2 * (q.y * q.z - q.x * q.w), 0,
   2 * (q.z * q.x - q.y * q.w), 2 * (q.y * q.z + q.x * q.w),
     1 - 2 * (q.y * q.y + q.x * q.x), 0,
   0, 0, 0, 1]

/-- Truncation toward zero, as C / Python `math.fmod` uses. -/
noncomputable def truncToward0 (t : ℝ) : ℝ :=
  if 0 ≤ t then (⌊t⌋ : ℝ) else (⌈t⌉ : ℝ)

/-- Python `math.fmod(a, b) = a - b * trunc(a / b)` (sign follows `a`). -/
noncomputable def fmod (a b : ℝ) : ℝ :=
  a - b * truncToward0 (a / b)

/-- State of the Python `Trackball` object.  `_RENORMCOUNT` and
`_TRACKBALLSIZE` are set in `__init__` and never written again, so they are
module-level constants here; `self._matrix = None` before the first
`_set_orientation` call is modelled by the empty list. -/
structure Trackball where
  rotation : Quat
  zoom : ℝ
  distance : ℝ
  count : ℕ
  matrix : List ℝ
  theta : ℝ
  phi : ℝ
  x : ℝ
  y : ℝ

/-- Source `self._RENORMCOUNT = 97`. -/
def Trackball.RENORMCOUNT : ℕ := 97

/-- Source `self._TRACKBALLSIZE = 0.8`. -/
noncomputable def Trackball.TRACKBALLSIZE : ℝ := 0.8

/-- Source `Trackball._project`: sphere of radius `r` inside
`d < r * 0.70710678118654752440` (the literal is `1/√2` to 21 digits),
hyperbolic sheet `t*t/d` with `t = r / 1.41421356237309504880` (the literal
is `√2` to 21 digits) outside. -/
noncomputable def Trackball._project (r x y : ℝ) : ℝ :=
  let d := Real.sqrt (x * x + y * y)
  if d < r * (Real.sqrt 2)⁻¹ then
    Real.sqrt (r * r - d * d)
  else
    let t := r / Real.sqrt 2
    t * t / d

/-- Source `Trackball._rotate`: the drag-to-rotation core.  `not dx and not
dy` on floats is the test `dx = 0 ∧ dy = 0`. -/
noncomputable def Trackball._rotate (x y dx dy : ℝ) : Quat :=
  if dx = 0 ∧ dy = 0 then ⟨0, 0, 0, 1⟩
  else
    let lastP : V3 := ⟨x, y, Trackball._project Trackball.TRACKBALLSIZE x y⟩
    let newP : V3 :=
      ⟨x + dx, y + dy,
       Trackball._project Trackball.TRACKBALLSIZE (x + dx) (y + dy)⟩
    let a := _v_cross newP lastP
    let d := _v_sub lastP newP
    let t0 := _v_length d / (2 * Trackball.TRACKBALLSIZE)
    let t1 := if t0 > 1 then 1 else t0
    let t2 := if t1 < -1 then -1 else t1
    let phi := 2 * Real.arcsin t2
    _q_from_axis_angle a phi

/-- Source `Trackball._set_orientation`: stores `theta`/`phi`, rebuilds the
rotation as `add(xrot, zrot)` and regenerates the cached matrix.  Under
exact-real trigonometry `Trackball(0, 180)` gets the rotation `(0, 0, 1, 0)`
whereas the double program computes the scalar component as `6.123e-17`;
the two agree exactly on the z-component (`sin` of the double nearest `π/2`
rounds to exactly `1.0`), which is all the theorems below rely on. -/
noncomputable def Trackball._set_orientation (st : Trackball) (theta phi : ℝ) :
    Trackball :=
  let angle1 := theta * (Real.pi / 180)
  let sine1 := Real.sin (0.5 * angle1)
  let xrot : Quat := ⟨1 * sine1, 0, 0, Real.cos (0.5 * angle1)⟩
  let angle2 := phi * (Real.pi / 180)
  let sine2 := Real.sin (0.5 * angle2)
  let zrot : Quat := ⟨0, 0, sine2, Real.cos (0.5 * angle2)⟩
  let rot := _q_add xrot zrot
  { st with theta := theta, phi := phi, rotation := rot,
            matrix := _q_rotmatrix rot }

/-- Source `Trackball._get_orientation`: with `q0,q1,q2,q3 = self._rotation`,
`ax = atan(2(q0q1+q2q3)/(1-2(q1²+q2²)))·180/π`,
`az = atan(2(q0q3+q1q2)/(1-2(q2²+q3²)))·180/π`, returning `(-az, ax)`.
The divisions are unguarded in the source: a zero denominator raises
`ZeroDivisionError`, modelled by `none` (the `ax` denominator is evaluated
first).  `none` matches a raising program run only at inputs whose double
evaluation of the denominator is itself exactly `0.0` (e.g. the dyadic
rotation `(0, 1/2, 1/2, 0)`, every step exact in doubles); at inputs where
only the exact-real denominator vanishes (e.g. the rotation the doubles
program computes for `Trackball(90, 0)`, denominator `−2.22e-16`) the
program returns normally, so no theorem below evaluates `none` there. -/
noncomputable def Trackball._get_orientation (q : Quat) : Option (ℝ × ℝ) :=
  if 1 - 2 * (q.y * q.y + q.z * q.z) = 0 then none
  else if 1 - 2 * (q.z * q.z + q.w * q.w) = 0 then none
  else
    let ax := Real.arctan (2 * (q.x * q.y + q.z * q.w) /
      (1 - 2 * (q.y * q.y + q.z * q.z))) * 180 / Real.pi
    let az := Real.arctan (2 * (q.x * q.w + q.y * q.z) /
      (1 - 2 * (q.z * q.z + q.w * q.w))) * 180 / Real.pi
    some (-az, ax)

/-- Source `Trackball.__init__(theta=0, phi=0, zoom=1, distance=3)`:
stores `zoom` and `distance` verbatim, zeroes the counter and the pan
offsets, and derives the initial rotation via `_set_orientation`. -/
noncomputable def Trackball.init (theta phi zoom distance : ℝ) : Trackball :=
  Trackball._set_orientation
    { rotation := ⟨0, 0, 0, 1⟩, zoom := zoom, distance := distance,
      count := 0, matrix := [], theta := theta, phi := phi, x := 0, y := 0 }
    theta phi

/-- Source `Trackball.drag_to(x, y, dx, dy)`: normalizes the pointer data by
the viewport (an explicit parameter here), composes the incremental rotation
onto the current one with `_q_add`, zeroes the z-component, bumps the drag
counter, renormalizes past `_RENORMCOUNT`, and regenerates the matrix. -/
noncomputable def Trackball.drag_to (st : Trackball)
    (x y dx dy width height : ℝ) : Trackball :=
  let x' := (x * 2 - width) / width
  let dx' := (2 * dx) / width
  let y' := (y * 2 - height) / height
  let dy' := (2 * dy) / height
  let q := Trackball._rotate x' y' dx' dy'
  let r := _q_add q st.rotation
  let rz : Quat := ⟨r.x, r.y, 0, r.w⟩
  if st.count + 1 > Trackball.RENORMCOUNT then
    { st with rotation := _q_normalize rz, count := 0,
              matrix := _q_rotmatrix (_q_normalize rz) }
  else
    { st with rotation := rz, count := st.count + 1,
              matrix := _q_rotmatrix rz }

/-- Source `zoom` property setter: stores the value then clamps it to
`[0.25, 10.0]` with two successive comparisons. -/
noncomputable def Trackball.zoom_set (st : Trackball) (zoom : ℝ) : Trackball :=
  let z1 := if zoom < 0.25 then 0.25 else zoom
  let z2 := if z1 > 10 then 10 else z1
  { st with zoom := z2 }

/-- Source `Trackball.zoom_to(x, y, dx, dy)`: assigns
`self.zoom - 5 * dy / height` through the clamping `zoom` setter. -/
noncomputable def Trackball.zoom_to (st : Trackball)
    (x y dx dy height : ℝ) : Trackball :=
  Trackball.zoom_set st (st.zoom - 5 * dy / height)

/-- Source `distance` property setter: stores the value then clamps it
below by `1`. -/
noncomputable def Trackball.distance_set (st : Trackball) (distance : ℝ) :
    Trackball :=
  let d1 := if distance < 1 then 1 else distance
  { st with distance := d1 }

/-- Source `Trackball.pan_to(x, y, dx, dy)`: accumulates the pan offset. -/
noncomputable def Trackball.pan_to (st : Trackball) (x y dx dy : ℝ) :
    Trackball :=
  { st with x := st.x + dx * 0.1, y := st.y + dy * 0.1 }

/-- Source `theta` property setter:
`_set_orientation(fmod(theta, 360.0), fmod(self._phi, 360.0))`. -/
noncomputable def Trackball.theta_set (st : Trackball) (theta : ℝ) :
    Trackball :=
  Trackball._set_orientation st (fmod theta 360) (fmod st.phi 360)

/-- Source `phi` property setter:
`_set_orientation(fmod(self._theta, 360.0), fmod(phi, 360.0))`. -/
noncomputable def Trackball.phi_set (st : Trackball) (phi : ℝ) : Trackball :=
  Trackball._set_orientation st (fmod st.theta 360) (fmod phi 360)

/-- Source `theta`/`phi` property getters: both run
`self._theta, self._phi = self._get_orientation()`.  When the getter raises
(`none`), the tuple assignment never happens and the state is unchanged. -/
noncomputable def Trackball.orientation_read (st : Trackball) : Trackball :=
  match Trackball._get_orientation st.rotation with
  | none => st
  | some tp => { st with theta := tp.1, phi := tp.2 }

/-- One mutating operation on a `Trackball`, for reachability statements. -/
inductive Op where
  | dragTo (x y dx dy width height : ℝ)
  | zoomTo (x y dx dy height : ℝ)
  | panTo (x y dx dy : ℝ)
  | setZoom (z : ℝ)
  | setDistance (d : ℝ)
  | setTheta (t : ℝ)
  | setPhi (p : ℝ)
  | readOrientation

/-- Apply one operation to a state. -/
noncomputable def applyOp (st : Trackball) : Op → Trackball
  | .dragTo x y dx dy width height => Trackball.drag_to st x y dx dy width height
  | .zoomTo x y dx dy height => Trackball.zoom_to st x y dx dy height
  | .panTo x y dx dy => Trackball.pan_to st x y dx dy
  | .setZoom z => Trackball.zoom_set st z
  | .setDistance d => Trackball.distance_set st d
  | .setTheta t => Trackball.theta_set st t
  | .setPhi p => Trackball.phi_set st p
  | .readOrientation => Trackball.orientation_read st

/-- Run a sequence of operations from a state. -/
noncomputable def run (ops : List Op) (st : Trackball) : Trackball :=
  ops.foldl applyOp st

/-- The statement `self._rotation[2] = 0.0` in `drag_to`: zero the quaternion's
third (z-vector) component. -/
noncomputable def zeroZ (q : Quat) : Quat :=
  ⟨q.x, q.y, 0, q.w⟩

/-- The quaternion `_q_add(q, self._rotation)` that `drag_to` computes before
zeroing the z-component: the incremental rotation (from the
viewport-normalized pointer data) composed onto the current rotation,
incremental first. -/
noncomputable def dragComposed (st : Trackball) (x y dx dy width height : ℝ) :
    Quat :=
  _q_add
    (Trackball._rotate ((x * 2 - width) / width) ((y * 2 - height) / height)
      ((2 * dx) / width) ((2 * dy) / height))
    st.rotation

/-- A sequence of zoom gestures, each a `(dy, height)` pair fed to `zoom_to`. -/
noncomputable def zoomSeq (gs : List (ℝ × ℝ)) (st : Trackball) : Trackball :=
  gs.foldl (fun s p => Trackball.zoom_to s 0 0 0 p.1 p.2) st

/-- The zoom/distance range the spec asserts for every state. -/
def Inv (st : Trackball) : Prop :=
  0.25 ≤ st.zoom ∧ st.zoom ≤ 10 ∧ 1 ≤ st.distance

/-! ### Helper lemmas shared by several verification theorems -/

lemma q_add_id_left (q : Quat) : _q_add ⟨0, 0, 0, 1⟩ q = q := by
  ext <;> simp [_q_add, _q_vec, _v_mul, _v_add, _v_cross, _v_dot]

lemma q_add_id_right (q : Quat) : _q_add q ⟨0, 0, 0, 1⟩ = q := by
  ext <;> simp [_q_add, _q_vec, _v_mul, _v_add, _v_cross, _v_dot]

lemma q_dot_self_nonneg (q : Quat) : 0 ≤ _q_dot q q := by
  have hx := mul_self_nonneg q.x
  have hy := mul_self_nonneg q.y
  have hz := mul_self_nonneg q.z
  have hw := mul_self_nonneg q.w
  simp only [_q_dot]
  linarith

lemma v_dot_self_nonneg (v : V3) : 0 ≤ _v_dot v v := by
  have hx := mul_self_nonneg v.x
  have hy := mul_self_nonneg v.y
  have hz := mul_self_nonneg v.z
  simp only [_v_dot]
  linarith

lemma q_dot_mul_self (q : Quat) (s : ℝ) :
    _q_dot (_q_mul q s) (_q_mul q s) = s ^ 2 * _q_dot q q := by
  simp only [_q_dot, _q_mul]
  ring

lemma v_dot_mul_self (v : V3) (s : ℝ) :
    _v_dot (_v_mul v s) (_v_mul v s) = s ^ 2 * _v_dot v v := by
  simp only [_v_dot, _v_mul]
  ring

lemma q_length_mul (q : Quat) (s : ℝ) :
    _q_length (_q_mul q s) = |s| * _q_length q := by
  rw [_q_length, q_dot_mul_self, Real.sqrt_mul (sq_nonneg s), Real.sqrt_sq_eq_abs,
    _q_length]

lemma v_length_mul (v : V3) (s : ℝ) :
    _v_length (_v_mul v s) = |s| * _v_length v := by
  rw [_v_length, v_dot_mul_self, Real.sqrt_mul (sq_nonneg s), Real.sqrt_sq_eq_abs,
    _v_length]

lemma q_length_nonneg (q : Quat) : 0 ≤ _q_length q :=
  Real.sqrt_nonneg _

lemma q_normalize_length (q : Quat) (h : _q_length q ≠ 0) :
    _q_length (_q_normalize q) = 1 := by
  have hpos : 0 < _q_length q := lt_of_le_of_ne (q_length_nonneg q) (Ne.symm h)
  rw [_q_normalize, if_neg h, q_length_mul, abs_of_pos (by positivity : (0:ℝ) < 1 / _q_length q)]
  field_simp

lemma v_normalize_length (v : V3) (h : _v_length v ≠ 0) :
    _v_length (_v_normalize v) = 1 := by
  have hpos : 0 < _v_length v := lt_of_le_of_ne (Real.sqrt_nonneg _) (Ne.symm h)
  rw [_v_normalize, if_neg h, v_length_mul, abs_of_pos (by positivity : (0:ℝ) < 1 / _v_length v)]
  field_simp

lemma q_normalize_z_zero (q : Quat) (h : q.z = 0) : (_q_normalize q).z = 0 := by
  rw [_q_normalize]
  split_ifs with h0
  · exact h
  · simp [_q_mul, h]

lemma zoom_set_zoom (st : Trackball) (z : ℝ) :
    (Trackball.zoom_set st z).zoom = min 10 (max 0.25 z) := by
  have hdef : (Trackball.zoom_set st z).zoom
      = (if (if z < 0.25 then (0.25:ℝ) else z) > 10 then 10
         else (if z < 0.25 then (0.25:ℝ) else z)) := rfl
  rw [hdef]
  rcases lt_or_le z 0.25 with h1 | h1
  · rw [if_pos h1, if_neg (by norm_num : ¬ (0.25:ℝ) > 10),
      max_eq_left h1.le, min_eq_right (by norm_num : (0.25:ℝ) ≤ 10)]
  · rw [if_neg (not_lt.mpr h1), max_eq_right h1]
    rcases lt_or_le (10:ℝ) z with h2 | h2
    · rw [if_pos h2, min_eq_left h2.le]
    · rw [if_neg (not_lt.mpr h2), min_eq_right h2]

lemma distance_set_distance (st : Trackball) (d : ℝ) :
    (Trackball.distance_set st d).distance = max 1 d := by
  have hdef : (Trackball.distance_set st d).distance
      = (if d < 1 then (1:ℝ) else d) := rfl
  rw [hdef]
  rcases lt_or_le d 1 with h1 | h1
  · rw [if_pos h1, max_eq_left h1.le]
  · rw [if_neg (not_lt.mpr h1), max_eq_right h1]

lemma drag_to_zoom (st : Trackball) (x y dx dy width height : ℝ) :
    (Trackball.drag_to st x y dx dy width height).zoom = st.zoom := by
  unfold Trackball.drag_to
  split_ifs <;> rfl

lemma drag_to_distance (st : Trackball) (x y dx dy width height : ℝ) :
    (Trackball.drag_to st x y dx dy width height).distance = st.distance := by
  unfold Trackball.drag_to
  split_ifs <;> rfl

lemma orientation_read_zoom (st : Trackball) :
    (Trackball.orientation_read st).zoom = st.zoom := by
  unfold Trackball.orientation_read
  cases Trackball._get_orientation st.rotation <;> rfl

lemma orientation_read_distance (st : Trackball) :
    (Trackball.orientation_read st).distance = st.distance := by
  unfold Trackball.orientation_read
  cases Trackball._get_orientation st.rotation <;> rfl

lemma drag_to_rotation (st : Trackball) (x y dx dy width height : ℝ) :
    (Trackball.drag_to st x y dx dy width height).rotation
      = (if st.count + 1 > Trackball.RENORMCOUNT
         then _q_normalize (zeroZ (dragComposed st x y dx dy width height))
         else zeroZ (dragComposed st x y dx dy width height)) := by
  unfold Trackball.drag_to dragComposed zeroZ
  split_ifs <;> rfl

lemma rotate_zero_delta (x y : ℝ) : Trackball._rotate x y 0 0 = ⟨0, 0, 0, 1⟩ := by
  rw [Trackball._rotate, if_pos ⟨rfl, rfl⟩]

lemma dragComposed_zero_delta (st : Trackball) (x y width height : ℝ) :
    dragComposed st x y 0 0 width height = st.rotation := by
  unfold dragComposed
  simp only [mul_zero, zero_div]
  rw [rotate_zero_delta, q_add_id_left]

lemma drag_to_zero_delta_rotation (st : Trackball) (x y width height : ℝ) :
    (Trackball.drag_to st x y 0 0 width height).rotation
      = (if st.count + 1 > Trackball.RENORMCOUNT
         then _q_normalize (zeroZ st.rotation)
         else zeroZ st.rotation) := by
  rw [drag_to_rotation, dragComposed_zero_delta]

lemma zeroZ_of_z_zero (q : Quat) (h : q.z = 0) : zeroZ q = q := by
  ext <;> simp [zeroZ, h]

lemma zoomSeq_inv (gs : List (ℝ × ℝ)) (st : Trackball)
    (h1 : 0.25 ≤ st.zoom) (h2 : st.zoom ≤ 10) :
    0.25 ≤ (zoomSeq gs st).zoom ∧ (zoomSeq gs st).zoom ≤ 10 := by
  induction gs generalizing st with
  | nil => exact ⟨h1, h2⟩
  | cons p rest ih =>
    show 0.25 ≤ (zoomSeq rest (Trackball.zoom_to st 0 0 0 p.1 p.2)).zoom
      ∧ (zoomSeq rest (Trackball.zoom_to st 0 0 0 p.1 p.2)).zoom ≤ 10
    have hz : (Trackball.zoom_to st 0 0 0 p.1 p.2).zoom
        = min 10 (max 0.25 (st.zoom - 5 * p.1 / p.2)) := by
      unfold Trackball.zoom_to
      exact zoom_set_zoom st _
    exact ih _ (by rw [hz]; exact le_min (by norm_num) (le_max_left _ _))
      (by rw [hz]; exact min_le_left _ _)

lemma inv_applyOp (st : Trackball) (op : Op) (h : Inv st) : Inv (applyOp st op) := by
  obtain ⟨h1, h2, h3⟩ := h
  cases op with
  | dragTo x y dx dy width height =>
    exact ⟨by simp only [applyOp]; rw [drag_to_zoom]; exact h1,
           by simp only [applyOp]; rw [drag_to_zoom]; exact h2,
           by simp only [applyOp]; rw [drag_to_distance]; exact h3⟩
  | zoomTo x y dx dy height =>
    have hz : (Trackball.zoom_to st x y dx dy height).zoom
        = min 10 (max 0.25 (st.zoom - 5 * dy / height)) := by
      unfold Trackball.zoom_to
      exact zoom_set_zoom st _
    exact ⟨by simp only [applyOp]; rw [hz]; exact le_min (by norm_num) (le_max_left _ _),
           by simp only [applyOp]; rw [hz]; exact min_le_left _ _, h3⟩
  | panTo x y dx dy => exact ⟨h1, h2, h3⟩
  | setZoom z =>
    exact ⟨by simp only [applyOp]; rw [zoom_set_zoom]; exact le_min (by norm_num) (le_max_left _ _),
           by simp only [applyOp]; rw [zoom_set_zoom]; exact min_le_left _ _, h3⟩
  | setDistance d =>
    exact ⟨h1, h2, by simp only [applyOp]; rw [distance_set_distance]; exact le_max_left _ _⟩
  | setTheta t => exact ⟨h1, h2, h3⟩
  | setPhi p => exact ⟨h1, h2, h3⟩
  | readOrientation =>
    exact ⟨by simp only [applyOp]; rw [orientation_read_zoom]; exact h1,
           by simp only [applyOp]; rw [orientation_read_zoom]; exact h2,
           by simp only [applyOp]; rw [orientation_read_distance]; exact h3⟩

lemma inv_run (ops : List Op) (st : Trackball) (h : Inv st) : Inv (run ops st) := by
  induction ops generalizing st with
  | nil => exact h
  | cons op rest ih => exact ih _ (inv_applyOp st op h)

lemma init_0_180_rotation : (Trackball.init 0 180 1 3).rotation = ⟨0, 0, 1, 0⟩ := by
  have hrot : (Trackball.init 0 180 1 3).rotation
      = _q_add
          ⟨1 * Real.sin (0.5 * (0 * (Real.pi / 180))), 0, 0,
           Real.cos (0.5 * (0 * (Real.pi / 180)))⟩
          ⟨0, 0, Real.sin (0.5 * (180 * (Real.pi / 180))),
           Real.cos (0.5 * (180 * (Real.pi / 180)))⟩ := rfl
  have e1 : (0.5 : ℝ) * (0 * (Real.pi / 180)) = 0 := by ring
  have e2 : (0.5 : ℝ) * (180 * (Real.pi / 180)) = Real.pi / 2 := by ring
  rw [hrot, e1, e2, Real.sin_zero, Real.cos_zero, Real.sin_pi_div_two,
    Real.cos_pi_div_two, mul_zero, q_add_id_left]

/-! ### Claim theorems -/

/-- C1, counterexample: a zero-delta drag is NOT always a no-op on the
rotation quaternion.  From the constructed state `Trackball(0, 180)` — whose
rotation is `(0, 0, 1, 0)` — `drag_to` with `dx = dy = 0` zeroes the
z-component and so changes the rotation. -/
theorem claim_C1_counterexample :
    (Trackball.drag_to (Trackball.init 0 180 1 3) 0 0 0 0 2 2).rotation
      ≠ (Trackball.init 0 180 1 3).rotation := by
  have hcnt : (Trackball.init 0 180 1 3).count = 0 := rfl
  rw [drag_to_zero_delta_rotation, hcnt,
    if_neg (by decide : ¬ ((0 : ℕ) + 1 > Trackball.RENORMCOUNT)),
    init_0_180_rotation]
  intro hEq
  have hz := congrArg Quat.z hEq
  simp [zeroZ] at hz

/-- C1 (amended): a zero-delta drag leaves the rotation quaternion unchanged
provided the stored quaternion's z-component is already 0 (as holds after any
previous drag) and the incremented drag counter does not exceed the
renormalization threshold; in general the call still zeroes the quaternion's
z-component. -/
theorem claim_C1_drag_zero_delta_noop (st : Trackball) (x y width height : ℝ)
    (hz : st.rotation.z = 0) (hc : st.count + 1 ≤ Trackball.RENORMCOUNT) :
    (Trackball.drag_to st x y 0 0 width height).rotation = st.rotation := by
  rw [drag_to_zero_delta_rotation, if_neg (not_lt.mpr hc), zeroZ_of_z_zero _ hz]

/-- Witness for C1: concrete instance with rotation `(1, 0, 0, 0)` and drag
counter 0. -/
theorem claim_C1_witness :
    ((⟨⟨1, 0, 0, 0⟩, 1, 3, 0, [], 0, 0, 0, 0⟩ : Trackball).rotation.z = 0
      ∧ (⟨⟨1, 0, 0, 0⟩, 1, 3, 0, [], 0, 0, 0, 0⟩ : Trackball).count + 1
          ≤ Trackball.RENORMCOUNT)
    ∧ (Trackball.drag_to ⟨⟨1, 0, 0, 0⟩, 1, 3, 0, [], 0, 0, 0, 0⟩ 0 0 0 0 2 2).rotation
        = (⟨⟨1, 0, 0, 0⟩, 1, 3, 0, [], 0, 0, 0, 0⟩ : Trackball).rotation :=
  ⟨⟨rfl, by decide⟩,
   claim_C1_drag_zero_delta_noop ⟨⟨1, 0, 0, 0⟩, 1, 3, 0, [], 0, 0, 0, 0⟩ 0 0 2 2
     rfl (by decide)⟩

/-- C2, counterexample: the theta/phi getters are NOT total for all finite
inputs.  At the finite rotation `(0, 1/2, 1/2, 0)` the first getter
denominator is `1 - 2·(1/4 + 1/4) = 0`, so `_get_orientation` raises
`ZeroDivisionError` (modelled by `none`).  Every number in this trace is a
dyadic rational and every arithmetic step (`0.5·0.5 = 0.25`,
`0.25 + 0.25 = 0.5`, `2·0.5 = 1`, `1 − 1 = 0`, division by `0.0`) is exact
in IEEE double arithmetic, so the program agrees with the model at this
input: Python raises `ZeroDivisionError: float division by zero`. -/
theorem claim_C2_counterexample :
    Trackball._get_orientation ⟨0, 1 / 2, 1 / 2, 0⟩ = none := by
  rw [Trackball._get_orientation,
    if_pos (by norm_num : (1 : ℝ) - 2 * ((1 : ℝ) / 2 * (1 / 2)
      + (1 : ℝ) / 2 * (1 / 2)) = 0)]

/-- C2 (amended): no operation raises for finite inputs except the theta/phi
getters, whose unguarded divisions raise exactly when a denominator
`1 − 2(q1² + q2²)` or `1 − 2(q2² + q3²)` is zero; for every quaternion with
both denominators nonzero the getters are defined, and zero-length inputs to
normalization are handled by a no-op rather than by raising. -/
theorem claim_C2_total_except_singular (q : Quat) (v : V3)
    (h1 : 1 - 2 * (q.y * q.y + q.z * q.z) ≠ 0)
    (h2 : 1 - 2 * (q.z * q.z + q.w * q.w) ≠ 0) :
    (Trackball._get_orientation q).isSome = true
    ∧ (_v_length v = 0 → _v_normalize v = v)
    ∧ (_q_length q = 0 → _q_normalize q = q) := by
  refine ⟨?_, fun h => by rw [_v_normalize, if_pos h],
    fun h => by rw [_q_normalize, if_pos h]⟩
  rw [Trackball._get_orientation, if_neg h1, if_neg h2]
  rfl

/-- Witness for C2: the identity quaternion has both denominators nonzero
(`1` and `−1`) and its orientation read is defined. -/
theorem claim_C2_witness :
    ((1 : ℝ) - 2 * ((0 : ℝ) * 0 + 0 * 0) ≠ 0)
    ∧ ((1 : ℝ) - 2 * ((0 : ℝ) * 0 + 1 * 1) ≠ 0)
    ∧ (Trackball._get_orientation ⟨0, 0, 0, 1⟩).isSome = true :=
  ⟨by norm_num, by norm_num,
   (claim_C2_total_except_singular ⟨0, 0, 0, 1⟩ ⟨0, 0, 0⟩ (by norm_num)
     (by norm_num)).1⟩

/-- C3, counterexample: the invariant does NOT hold immediately after
construction for every constructor argument tuple — `Trackball(0, 0, 100, 3)`
has zoom 100, outside `[0.25, 10]`. -/
theorem claim_C3_counterexample : ¬ ((Trackball.init 0 0 100 3).zoom ≤ 10) := by
  show ¬ ((100 : ℝ) ≤ 10)
  norm_num

/-- C3 (amended): for every construction whose zoom argument lies in
`[0.25, 10]` and whose distance argument is at least 1, every state reachable
by any subsequent sequence of operations keeps zoom in `[0.25, 10]` and
distance at least 1. -/
theorem claim_C3_invariant (theta phi zoom distance : ℝ) (ops : List Op)
    (h1 : 0.25 ≤ zoom) (h2 : zoom ≤ 10) (h3 : 1 ≤ distance) :
    0.25 ≤ (run ops (Trackball.init theta phi zoom distance)).zoom
    ∧ (run ops (Trackball.init theta phi zoom distance)).zoom ≤ 10
    ∧ 1 ≤ (run ops (Trackball.init theta phi zoom distance)).distance :=
  inv_run ops _ ⟨h1, h2, h3⟩

/-- Witness for C3: construction with zoom 1, distance 3, then an
out-of-range zoom assignment. -/
theorem claim_C3_witness :
    ((0.25 : ℝ) ≤ 1 ∧ (1 : ℝ) ≤ 10 ∧ (1 : ℝ) ≤ 3)
    ∧ (0.25 ≤ (run [Op.setZoom 100] (Trackball.init 0 0 1 3)).zoom
       ∧ (run [Op.setZoom 100] (Trackball.init 0 0 1 3)).zoom ≤ 10
       ∧ 1 ≤ (run [Op.setZoom 100] (Trackball.init 0 0 1 3)).distance) :=
  ⟨⟨by norm_num, by norm_num, by norm_num⟩,
   claim_C3_invariant 0 0 1 3 [Op.setZoom 100] (by norm_num) (by norm_num)
     (by norm_num)⟩

/-- C4: every `drag_to` call replaces the stored rotation with
`add(incremental, current)` (incremental first) with the z-component then set
to 0 (renormalized when the counter passes the threshold), and consequently
the stored rotation's z-component equals 0 after every drag call. -/
theorem claim_C4_drag_zeroes_z (st : Trackball) (x y dx dy width height : ℝ) :
    ((Trackball.drag_to st x y dx dy width height).rotation
      = (if st.count + 1 > Trackball.RENORMCOUNT
         then _q_normalize (zeroZ (dragComposed st x y dx dy width height))
         else zeroZ (dragComposed st x y dx dy width height)))
    ∧ (Trackball.drag_to st x y dx dy width height).rotation.z = 0 := by
  refine ⟨drag_to_rotation st x y dx dy width height, ?_⟩
  rw [drag_to_rotation]
  split_ifs with h
  · exact q_normalize_z_zero _ rfl
  · rfl

/-- C5: for every point `(x, y)` with planar distance `d = √(x² + y²)` from
the center, `_project` with radius `0.8` returns `√(0.8² − d²)` when
`d < 0.8/√2` and `(0.8/√2)²/d` otherwise; in particular
`_project(0.8, 0, 0) = 0.8`. -/
theorem claim_C5_project (x y : ℝ) :
    (Trackball._project 0.8 x y
      = (if Real.sqrt (x * x + y * y) < 0.8 / Real.sqrt 2
         then Real.sqrt (0.8 ^ 2 - Real.sqrt (x * x + y * y) ^ 2)
         else (0.8 / Real.sqrt 2) ^ 2 / Real.sqrt (x * x + y * y)))
    ∧ Trackball._project 0.8 0 0 = 0.8 := by
  constructor
  · simp only [Trackball._project]
    rw [div_eq_mul_inv (0.8 : ℝ)]
    have h1 : (0.8 : ℝ) * 0.8 - Real.sqrt (x * x + y * y) * Real.sqrt (x * x + y * y)
        = 0.8 ^ 2 - Real.sqrt (x * x + y * y) ^ 2 := by ring
    have h2 : (0.8 : ℝ) * (Real.sqrt 2)⁻¹ * (0.8 * (Real.sqrt 2)⁻¹)
        = (0.8 * (Real.sqrt 2)⁻¹) ^ 2 := by ring
    rw [h1, h2]
  · simp only [Trackball._project]
    have hd : Real.sqrt ((0 : ℝ) * 0 + 0 * 0) = 0 := by
      norm_num
    rw [hd, if_pos (by positivity : (0 : ℝ) < 0.8 * (Real.sqrt 2)⁻¹)]
    rw [show (0.8 : ℝ) * 0.8 - 0 * 0 = 0.8 ^ 2 by norm_num,
      Real.sqrt_sq (by norm_num : (0 : ℝ) ≤ 0.8)]

/-- C7: for every prior zoom value (in range or not), `zoom_to` changes zoom
by exactly `−5·dy/height` before clamping and stores that raw value clamped
to `[0.25, 10]`; after any sequence of zoom gestures from an in-range zoom
the zoom stays in `[0.25, 10]`. -/
theorem claim_C7_zoom (st : Trackball) (x y dx dy height : ℝ)
    (gs : List (ℝ × ℝ)) :
    (Trackball.zoom_to st x y dx dy height).zoom
      = min 10 (max 0.25 (st.zoom - 5 * dy / height))
    ∧ (0.25 ≤ st.zoom → st.zoom ≤ 10 →
        0.25 ≤ (zoomSeq gs st).zoom ∧ (zoomSeq gs st).zoom ≤ 10) := by
  refine ⟨?_, fun h1 h2 => zoomSeq_inv gs st h1 h2⟩
  unfold Trackball.zoom_to
  exact zoom_set_zoom st _

/-- Witness for C7: zoom 1, viewport height 800, delta 80 — the raw change is
exactly −0.5 and the stored zoom is 0.5; one such gesture from the in-range
zoom 1 stays in `[0.25, 10]`. -/
theorem claim_C7_witness :
    ((0.25 : ℝ) ≤ 1 ∧ (1 : ℝ) ≤ 10)
    ∧ (Trackball.zoom_to ⟨⟨0, 0, 0, 1⟩, 1, 3, 0, [], 0, 0, 0, 0⟩ 0 0 0 80 800).zoom
        = min 10 (max 0.25 (1 - 5 * 80 / 800))
    ∧ (0.25 ≤ (zoomSeq [(80, 800)] ⟨⟨0, 0, 0, 1⟩, 1, 3, 0, [], 0, 0, 0, 0⟩).zoom
       ∧ (zoomSeq [(80, 800)] ⟨⟨0, 0, 0, 1⟩, 1, 3, 0, [], 0, 0, 0, 0⟩).zoom ≤ 10) :=
  ⟨⟨by norm_num, by norm_num⟩,
   (claim_C7_zoom ⟨⟨0, 0, 0, 1⟩, 1, 3, 0, [], 0, 0, 0, 0⟩ 0 0 0 80 800
     [(80, 800)]).1,
   (claim_C7_zoom ⟨⟨0, 0, 0, 1⟩, 1, 3, 0, [], 0, 0, 0, 0⟩ 0 0 0 80 800
     [(80, 800)]).2 (by norm_num) (by norm_num)⟩

/-- C8: the custom quaternion composition `_q_add` has `(0, 0, 0, 1)` as a
two-sided identity. -/
theorem claim_C8_add_identity (q : Quat) :
    _q_add ⟨0, 0, 0, 1⟩ q = q ∧ _q_add q ⟨0, 0, 0, 1⟩ = q :=
  ⟨q_add_id_left q, q_add_id_right q⟩

/-- C9: `_q_normalize` (and `_v_normalize`) return a value of length 1 when
the input has nonzero length and return the input unchanged when its length
is zero. -/
theorem claim_C9_normalize (q : Quat) (v : V3) :
    (_q_length q ≠ 0 → _q_length (_q_normalize q) = 1)
    ∧ (_q_length q = 0 → _q_normalize q = q)
    ∧ (_v_length v ≠ 0 → _v_length (_v_normalize v) = 1)
    ∧ (_v_length v = 0 → _v_normalize v = v) :=
  ⟨q_normalize_length q, fun h => by rw [_q_normalize, if_pos h],
   v_normalize_length v, fun h => by rw [_v_normalize, if_pos h]⟩

/-- Witness for C9: the quaternion `(0, 0, 0, 2)` (length 2) and the vector
`(0, 4, 3)` (length 5) normalize to length 1. -/
theorem claim_C9_witness :
    _q_length (⟨0, 0, 0, 2⟩ : Quat) ≠ 0
    ∧ _v_length (⟨0, 4, 3⟩ : V3) ≠ 0
    ∧ _q_length (_q_normalize ⟨0, 0, 0, 2⟩) = 1
    ∧ _v_length (_v_normalize ⟨0, 4, 3⟩) = 1 := by
  have hq : _q_length (⟨0, 0, 0, 2⟩ : Quat) ≠ 0 := by
    have hd : _q_dot ⟨0, 0, 0, 2⟩ ⟨0, 0, 0, 2⟩ = 4 := by norm_num [_q_dot]
    rw [_q_length, hd]
    exact Real.sqrt_ne_zero'.mpr (by norm_num)
  have hv : _v_length (⟨0, 4, 3⟩ : V3) ≠ 0 := by
    have hd : _v_dot ⟨0, 4, 3⟩ ⟨0, 4, 3⟩ = 25 := by norm_num [_v_dot]
    rw [_v_length, hd]
    exact Real.sqrt_ne_zero'.mpr (by norm_num)
  exact ⟨hq, hv, (claim_C9_normalize ⟨0, 0, 0, 2⟩ ⟨0, 4, 3⟩).1 hq,
    (claim_C9_normalize ⟨0, 0, 0, 2⟩ ⟨0, 4, 3⟩).2.2.1 hv⟩

/-- C10: the constructor stores its zoom and distance arguments verbatim with
no clamping — `Trackball(0, 0, 100, 0)` has zoom 100 (outside `[0.25, 10]`)
and distance 0 (below 1), and operations that do not assign zoom or distance
leave them there. -/
theorem claim_C10_constructor_verbatim :
    (∀ theta phi zoom distance : ℝ,
      (Trackball.init theta phi zoom distance).zoom = zoom
      ∧ (Trackball.init theta phi zoom distance).distance = distance)
    ∧ ¬ ((Trackball.init 0 0 100 0).zoom ≤ 10)
    ∧ (Trackball.init 0 0 100 0).distance < 1
    ∧ (∀ x y dx dy width height : ℝ,
        (Trackball.drag_to (Trackball.init 0 0 100 0) x y dx dy width height).zoom
          = 100
        ∧ (Trackball.pan_to (Trackball.init 0 0 100 0) x y dx dy).zoom = 100
        ∧ (Trackball.drag_to (Trackball.init 0 0 100 0) x y dx dy width height).distance
          = 0) := by
  refine ⟨fun theta phi zoom distance => ⟨rfl, rfl⟩, ?_, ?_, ?_⟩
  · show ¬ ((100 : ℝ) ≤ 10)
    norm_num
  · show (0 : ℝ) < 1
    norm_num
  · intro x y dx dy width height
    refine ⟨?_, rfl, ?_⟩
    · rw [drag_to_zoom]
      exact rfl
    · rw [drag_to_distance]
      exact rfl

end ModelPlane
